import Mathlib

/-!
Verification of the voter-registration framework's Schema Onboarding and
Import Engine (shallow embedding of `src/voter_framework/cli/onboard_state.py`
and `src/voter_framework/cli/import_to_sqlite.py`).

Python dictionaries are modelled as ordered association lists with the usual
CPython semantics: inserting an existing key updates the value in place and
keeps the key's original position; inserting a fresh key appends it at the end.
A pandas DataFrame read with `dtype=str` is modelled as an ordered list of
(column name, series) pairs, where a series is a list of `Option String`
(`none` is NaN).  String values are compared exactly as Python does
(case-sensitive `==`, substring containment for `pat in s`, ASCII lowering
for `.lower()` on the ASCII column names used throughout).
-/

namespace VoterFramework

/-- Lowercase a single character, ASCII range only (models Python `str.lower`
on the ASCII column names used by the framework). -/
def lowerChar (c : Char) : Char :=
  if 65 ≤ c.toNat && c.toNat ≤ 90 then Char.ofNat (c.toNat + 32) else c

/-- Python `s.lower()` for ASCII strings. -/
def pyLower (s : String) : String :=
  String.mk (s.data.map lowerChar)

/-- Does the second list start with the first one? -/
def headAgrees : List Char → List Char → Bool
  | [], _ => true
  | _ :: _, [] => false
  | a :: as, b :: bs => a == b && headAgrees as bs

/-- Substring containment on character lists. -/
def containsCL (pat : List Char) : List Char → Bool
  | [] => pat.isEmpty
  | c :: rest => headAgrees pat (c :: rest) || containsCL pat rest

/-- Python `pat in s` (substring containment). -/
def containsStr (pat s : String) : Bool :=
  containsCL pat.data s.data

/-- Python `s.startswith(pre)`. -/
def startsWithStr (pre s : String) : Bool :=
  headAgrees pre.data s.data

/-- Whitespace characters removed by Python `str.strip()`. -/
def isSpaceChar (c : Char) : Bool :=
  c == ' ' || c == '\t' || c == '\n' || c == '\r' || c == '\x0b' || c == '\x0c'

/-- Drop leading whitespace from a character list. -/
def dropSpaces : List Char → List Char
  | [] => []
  | c :: rest => if isSpaceChar c then dropSpaces rest else c :: rest

/-- Python `s.strip()`. -/
def pyStrip (s : String) : String :=
  String.mk ((dropSpaces (dropSpaces s.data).reverse).reverse)

/-- Python dict insertion `d[k] = v`: update the value in place if the key
exists (keeping the key's position), otherwise append the new pair at the
end.  Keys are unique in every dict this development builds (they all grow
from the empty dict through this function). -/
def dictInsert {α : Type} : List (String × α) → String → α → List (String × α)
  | [], k, v => [(k, v)]
  | p :: d, k, v => if p.1 == k then (k, v) :: d else p :: dictInsert d k v

/-- Python dict lookup `d[k]` / `d.get(k)`. -/
def lookupVal {α : Type} (d : List (String × α)) (k : String) : Option α :=
  (d.find? (fun p => p.1 == k)).map (·.2)

/-- The dict comprehension `{col.lower(): col for col in df.columns}` used to
build the case-insensitive column lookup in both CLI tools. -/
def colLookup (cols : List String) : List (String × String) :=
  cols.foldl (fun acc c => dictInsert acc (pyLower c) c) []

/-!  Pattern tables of `analyze_columns` (onboard_state.py lines 60-102),
in source order. -/

/-- The `name_patterns` table of `analyze_columns`. -/
def name_patterns : List (String × List String) :=
  [("first_name", ["first", "given", "fname", "firstname", "name_first"]),
   ("last_name", ["last", "surname", "lname", "lastname", "name_last"]),
   ("middle_name", ["middle", "mname", "middlename", "name_middle"]),
   ("birth_year", ["birth", "dob", "birthdate", "date_of_birth", "birthyear"]),
   ("birthday", ["birthday", "day_of_birth"]),
   ("registration_date", ["registrationdate", "regdate", "registration_date"]),
   ("city", ["city", "town", "regcity"]),
   ("state", ["state", "regstate"]),
   ("zip_code", ["zip", "postal", "zipcode", "regzipcode"]),
   ("gender", ["sex", "gender"]),
   ("party", ["party", "political", "affiliation"]),
   ("precinct", ["precinct", "district", "precinctcode", "precinct_id"]),
   ("county", ["county", "parish", "countycode", "county_name"]),
   ("voter_id", ["voterid", "voter_id", "statevoterid", "voter", "votid", "id"]),
   ("legislative_district", ["legislativedistrict", "legdistrict"]),
   ("congressional_district", ["congressionaldistrict", "congdistrict"]),
   ("last_voted_date", ["lastvoted", "last_voted", "lastvoteddate"]),
   ("status_code", ["statuscode", "status", "voter_status"])]

/-- The `address_patterns` table of `analyze_columns`. -/
def address_patterns_ac : List (String × List String) :=
  [("address_street_number",
      ["stnum", "street_number", "housenumber", "regstnum", "stnumber",
       "address_number", "streetno"]),
   ("address_street_fraction", ["stfrac", "fraction", "regstfrac", "address_frac"]),
   ("address_street_pre_direction",
      ["stpredir", "predirection", "regstpredirection", "address_dir_pre",
       "streetdir"]),
   ("address_street_name",
      ["stname", "street_name", "regstname", "address_street", "streetname"]),
   ("address_street_type",
      ["sttype", "street_type", "regsttype", "address_suffix", "streettype"]),
   ("address_unit_type", ["unittype", "regunittype", "address_unit_type"]),
   ("address_street_post_direction",
      ["stpostdir", "postdirection", "regstpostdirection", "address_dir_post"]),
   ("address_unit_number", ["unitnum", "regstunitnum", "address_unit", "unitno"])]

/-- The `mailing_patterns` table of `analyze_columns`. -/
def mailing_patterns_ac : List (String × List String) :=
  [("mailing_address", ["mail1", "mailingaddress"]),
   ("mailing_address2", ["mail2", "mailingaddress2"]),
   ("mailing_address3", ["mail3", "mailingaddress3"]),
   ("mailing_city", ["mailcity"]),
   ("mailing_state", ["mailstate"]),
   ("mailing_zip", ["mailzip"]),
   ("mailing_country", ["mailcountry"])]

/-- All three tables of `analyze_columns`, consulted in source order. -/
def allPatternTables : List (String × List String) :=
  name_patterns ++ address_patterns_ac ++ mailing_patterns_ac

/-- The `state_mappings` table of `analyze_columns` (onboard_state.py
lines 105-191), as (state, mapping) pairs in source order. -/
def state_mappings : List (String × List (String × String)) :=
  [("WA",
    [("FName", "first_name"), ("LName", "last_name"), ("MName", "middle_name"),
     ("StateVoterID", "voter_id"), ("Birthyear", "birth_year"),
     ("Gender", "gender"), ("PrecinctCode", "precinct"),
     ("CountyCode", "county"), ("LegislativeDistrict", "legislative_district"),
     ("CongressionalDistrict", "congressional_district"),
     ("LastVoted", "last_voted_date"), ("StatusCode", "status_code"),
     ("RegStNum", "address_street_number"),
     ("RegStFrac", "address_street_fraction"),
     ("RegStPreDirection", "address_street_pre_direction"),
     ("RegStName", "address_street_name"),
     ("RegStType", "address_street_type"),
     ("RegUnitType", "address_unit_type"),
     ("RegStPostDirection", "address_street_post_direction"),
     ("RegStUnitNum", "address_unit_number"),
     ("Mail1", "mailing_address"), ("Mail2", "mailing_address2"),
     ("Mail3", "mailing_address3"), ("MailCity", "mailing_city"),
     ("MailState", "mailing_state"), ("MailZip", "mailing_zip"),
     ("MailCountry", "mailing_country"),
     ("Registrationdate", "registration_date"), ("RegCity", "city"),
     ("RegState", "state"), ("RegZipCode", "zip_code")]),
   ("OR",
    [("VoterId", "voter_id"), ("FirstName", "first_name"),
     ("LastName", "last_name"), ("MiddleName", "middle_name"),
     ("BirthYear", "birth_year"), ("RegDate", "registration_date"),
     ("City", "city"), ("State", "state"), ("Zip", "zip_code"),
     ("Sex", "gender"), ("Precinct", "precinct"), ("County", "county"),
     ("LegDistrict", "legislative_district"),
     ("CongDistrict", "congressional_district"),
     ("LastVotedDate", "last_voted_date"), ("Status", "status_code"),
     ("StreetNo", "address_street_number"),
     ("StreetDir", "address_street_pre_direction"),
     ("StreetName", "address_street_name"),
     ("StreetType", "address_street_type"),
     ("UnitType", "address_unit_type"), ("UnitNo", "address_unit_number"),
     ("MailAddress", "mailing_address"), ("MailCity", "mailing_city"),
     ("MailState", "mailing_state"), ("MailZip", "mailing_zip")]),
   ("CA",
    [("ID", "voter_id"), ("NAME_FIRST", "first_name"),
     ("NAME_LAST", "last_name"), ("NAME_MIDDLE", "middle_name"),
     ("NAME_SUFFIX", "suffix"), ("BIRTH_YEAR", "birth_year"),
     ("GENDER", "gender"), ("ADDRESS_FULL", "address"), ("CITY", "city"),
     ("STATE", "state"), ("ZIP", "zip_code"), ("COUNTY_NAME", "county"),
     ("PRECINCT_ID", "precinct"),
     ("ASSEMBLY_DISTRICT", "legislative_district"),
     ("CONGRESS_DISTRICT", "congressional_district"),
     ("LAST_VOTED_DATE", "last_voted_date"), ("VOTER_STATUS", "status_code"),
     ("MAILING_ADDRESS", "mailing_address"), ("MAILING_CITY", "mailing_city"),
     ("MAILING_STATE", "mailing_state"), ("MAILING_ZIP", "mailing_zip"),
     ("REGISTRATION_DATE", "registration_date")])]

/-- The `key_columns` table used to recognise a state-specific format. -/
def key_columns (st : String) : List String :=
  if st == "WA" then ["FName", "LName", "StateVoterID"]
  else if st == "OR" then ["FirstName", "LastName", "VoterId"]
  else ["NAME_FIRST", "NAME_LAST", "ID"]

/-- The first state of `state_mappings` whose key columns are all present
(case-insensitively) in the header, if any. -/
def stateFormat (cols : List String) : Option (String × List (String × String)) :=
  let lookup := colLookup cols
  state_mappings.find? (fun sm =>
    (key_columns sm.1).all (fun k => lookup.any (fun p => p.1 == pyLower k)))

/-- One step of the state-specific mapping construction: resolve the original
column name case-insensitively and record the (actual column, schema field)
pair when found. -/
def stateMapStep (lookup : List (String × String))
    (acc : List (String × String)) (p : String × String) :
    List (String × String) :=
  match lookupVal lookup (pyLower p.1) with
  | some actual => dictInsert acc actual p.2
  | none => acc

/-- Case-sensitive mappings built from a matched state table: for each
(original column, schema field) pair, resolve the actual header column via the
case-insensitive lookup and record it when found. -/
def buildStateMappings (lookup : List (String × String))
    (stateMap : List (String × String)) : List (String × String) :=
  stateMap.foldl (stateMapStep lookup) []

/-- One pass of the pattern matcher: assign a canonical field to the first
header column (in lookup order) whose lowercased name contains one of the
field's patterns, if any. -/
def assignField (lookup : List (String × String))
    (mappings : List (String × String)) (entry : String × List String) :
    List (String × String) :=
  match lookup.find? (fun p => entry.2.any (fun pat => containsStr pat p.1)) with
  | some hit => dictInsert mappings hit.2 entry.1
  | none => mappings

/-- The Column Mapping Resolver, `analyze_columns` (onboard_state.py
lines 49-244), as a function of the header. -/
def analyze_columns (cols : List String) : List (String × String) :=
  match stateFormat cols with
  | some sm => buildStateMappings (colLookup cols) sm.2
  | none =>
    let lookup := colLookup cols
    allPatternTables.foldl (assignField lookup) []

/-!  Address Field Composer, `analyze_address_fields`
(onboard_state.py lines 246-334). -/

/-- An address rule: the ordered raw columns joined per row, and the join
separator (the value of `{'fields': ..., 'separator': ...}`). -/
structure AddressRule where
  fields : List String
  separator : String
  deriving Repr, DecidableEq

/-- The combined-address pattern set of `analyze_address_fields`. -/
def combinedPatterns : List String :=
  ["address_full", "full_address", "complete_address"]

/-- Does a column name match the combined-address pattern set? -/
def isCombinedB (col : String) : Bool :=
  combinedPatterns.any (fun pat => containsStr pat (pyLower col))

/-- The `address_patterns` table of `analyze_address_fields`. -/
def address_patterns_aaf : List (String × List String) :=
  [("street_number",
      ["stnum", "street_number", "housenumber", "regstnum", "stnumber",
       "address_number", "streetno", "res_street_number"]),
   ("street_fraction",
      ["stfrac", "fraction", "regstfrac", "address_frac", "res_street_fraction"]),
   ("street_pre_direction",
      ["stpredir", "predirection", "regstpredirection", "address_dir_pre",
       "streetdir", "res_street_pre_direction"]),
   ("street_name",
      ["stname", "street_name", "regstname", "address_street", "streetname",
       "res_street_name"]),
   ("street_type",
      ["sttype", "street_type", "regsttype", "address_suffix", "streettype",
       "res_street_type"]),
   ("unit_type", ["unittype", "regunittype", "address_unit_type", "res_unit_type"]),
   ("street_post_direction",
      ["stpostdir", "postdirection", "regstpostdirection", "address_dir_post",
       "res_street_post_direction"]),
   ("unit_number",
      ["unitnum", "regstunitnum", "address_unit", "unitno", "res_unit_number"]),
   ("city", ["city", "regcity", "res_city"]),
   ("state", ["state", "regstate", "res_state"]),
   ("zip", ["zip", "zipcode", "regzipcode", "res_zip"])]

/-- Mailing-address patterns excluded from residential composition. -/
def mailingSkip : List String :=
  ["mail", "mailing", "mailcity", "mailstate", "mailzip", "mailcountry"]

/-- Voter-identifier patterns excluded from residential composition. -/
def voterIdSkip : List String :=
  ["voterid", "voter_id", "statevoterid", "voter", "votid", "id"]

/-- The fixed canonical order of the eleven address components. -/
def address_component_order : List String :=
  ["street_number", "street_fraction", "street_pre_direction", "street_name",
   "street_type", "unit_type", "street_post_direction", "unit_number",
   "city", "state", "zip"]

/-- Classify a raw column into at most one address component: mailing and
voter-id columns are skipped, otherwise the first component of
`address_patterns_aaf` one of whose patterns the lowercased name contains. -/
def classifyAddrCol (col : String) : Option String :=
  let lo := pyLower col
  if mailingSkip.any (fun pat => containsStr pat lo) then none
  else if voterIdSkip.any (fun pat => containsStr pat lo) then none
  else (address_patterns_aaf.find?
          (fun e => e.2.any (fun pat => containsStr pat lo))).map (·.1)

/-- The `column_component_map` dict of `analyze_address_fields`. -/
def buildComponentMap : List String → List (String × String) →
    List (String × String)
  | [], acc => acc
  | col :: rest, acc =>
    match classifyAddrCol col with
    | some comp => buildComponentMap rest (dictInsert acc col comp)
    | none => buildComponentMap rest acc

/-- The Address Field Composer, `analyze_address_fields` (onboard_state.py
lines 246-334), as a function of the header.  The returned association list
models the returned Python dict (always exactly the key `address`). -/
def analyze_address_fields (cols : List String) : List (String × AddressRule) :=
  match cols.find? (fun col => isCombinedB col) with
  | some col => [("address", ⟨[col], " "⟩)]
  | none =>
    let m := buildComponentMap cols []
    let fields := (address_component_order.map (fun comp =>
        (m.filter (fun e => e.2 == comp)).map (·.1))).flatten
    [("address", ⟨fields, " "⟩)]

/-!  Import Engine, `import_data` / `import_main`
(import_to_sqlite.py lines 94-412 and 463-619). -/

/-- A string column of a DataFrame read with `dtype=str`: one value per row,
`none` for NaN. -/
abbrev Series := List (Option String)

/-- A DataFrame: ordered (column name, series) pairs. -/
abbrev DF := List (String × Series)

/-- The series of a DataFrame column (first matching name), defaulting to the
empty series; the engine only accesses columns obtained from the lookup, which
always exist. -/
def getColD (df : DF) (name : String) : Series :=
  ((df.find? (fun p => p.1 == name)).map (·.2)).getD []

/-- Number of rows of a DataFrame (the length of its first series; a frame
with no columns has no rows). -/
def dfNumRows (df : DF) : Nat :=
  match df with
  | [] => 0
  | (_, s) :: _ => s.length

/-- The columns of the destination table created by `create_table`
(import_to_sqlite.py lines 94-144). -/
def tableColumns : List String :=
  ["id", "first_name", "last_name", "middle_name", "suffix", "birth_year",
   "birthday", "registration_date", "address", "address_street_number",
   "address_street_fraction", "address_street_pre_direction",
   "address_street_name", "address_street_type", "address_unit_type",
   "address_street_post_direction", "address_unit_number", "city", "state",
   "zip_code", "gender", "party", "precinct", "precinct_part", "county",
   "voter_id", "legislative_district", "congressional_district",
   "last_voted_date", "status_code", "mailing_address", "mailing_address2",
   "mailing_address3", "mailing_city", "mailing_state", "mailing_zip",
   "mailing_country", "created_at"]

/-- Row-wise assembly of the combined address: for row `i`, join the values of
the collected component columns that are non-empty after trimming, with the
separator (the `pd.DataFrame(parts).T.apply(...)` lambda). -/
def composeRows (sep : String) (parts : List (List String)) (n : Nat) :
    List String :=
  (List.range n).map (fun i =>
    String.intercalate sep
      ((parts.map (fun s => (s.get? i).getD "")).filter
        (fun v => !(pyStrip v == ""))))

/-- One step of the hard-coded Washington mapping: copy the raw column named
by the lowercase key into the given canonical field when present. -/
def waMapStep (lookup : List (String × String)) (df : DF) (dfm : DF)
    (p : String × String) : DF :=
  match lookupVal lookup p.1 with
  | some actual => dictInsert dfm p.2 (getColD df actual)
  | none => dfm

/-- The explicit (lowercase raw key, canonical field) pairs of the hard-coded
Washington branch of `import_data` (lines 171-269), in source order. -/
def waPairs : List (String × String) :=
  [("statevoterid", "voter_id"), ("fname", "first_name"),
   ("lname", "last_name"), ("mname", "middle_name"),
   ("birthyear", "birth_year"), ("gender", "gender"),
   ("namesuffix", "suffix"), ("countycode", "county"),
   ("precinctcode", "precinct"), ("legislativedistrict", "legislative_district"),
   ("congressionaldistrict", "congressional_district"),
   ("registrationdate", "registration_date"), ("lastvoted", "last_voted_date"),
   ("statuscode", "status_code"), ("regstnum", "address_street_number"),
   ("regstfrac", "address_street_fraction"),
   ("regstpredirection", "address_street_pre_direction"),
   ("regstname", "address_street_name"), ("regsttype", "address_street_type"),
   ("regunittype", "address_unit_type"),
   ("regstpostdirection", "address_street_post_direction"),
   ("regstunitnum", "address_unit_number"), ("regcity", "city"),
   ("regstate", "state"), ("regzipcode", "zip_code"),
   ("mail1", "mailing_address"), ("mail2", "mailing_address2"),
   ("mail3", "mailing_address3"), ("mailcity", "mailing_city"),
   ("mailstate", "mailing_state"), ("mailzip", "mailing_zip"),
   ("mailcountry", "mailing_country")]

/-- The address components of the Washington branch (lines 271-321), in
source order; the flag records whether the component is appended only when
some row value is non-empty after stripping (`.str.strip().any()`). -/
def waCompSpec : List (String × Bool) :=
  [("regstnum", false), ("regstfrac", true), ("regstpredirection", true),
   ("regstname", false), ("regsttype", false), ("regstpostdirection", true),
   ("regunittype", true), ("regstunitnum", true), ("regcity", true),
   ("regstate", true), ("regzipcode", true)]

/-- The hard-coded Washington branch of `import_data` (lines 171-328). -/
def waBranch (df : DF) : DF :=
  let lookup := colLookup (df.map (·.1))
  let dfm := waPairs.foldl (waMapStep lookup df) []
  let comps := waCompSpec.foldl (fun acc p =>
    match lookupVal lookup p.1 with
    | some actual =>
      let s := (getColD df actual).map (fun v => v.getD "")
      if p.2 then
        (if s.any (fun v => !(pyStrip v == "")) then acc ++ [s] else acc)
      else acc ++ [s]
    | none => acc) []
  if comps.isEmpty then dfm
  else dictInsert dfm "address" ((composeRows " " comps (dfNumRows df)).map some)

/-- One step of the generic mapping loop of `import_data` (lines 331-340):
copy the raw column into the canonical field for non-address mappings,
resolving the raw column case-insensitively. -/
def nonAddrStep (df : DF) (lookup : List (String × String)) (dfm : DF)
    (p : String × String) : DF :=
  if startsWithStr "address_" p.2 then dfm
  else
    match lookupVal lookup (pyLower p.1) with
    | some actual => dictInsert dfm p.2 (getColD df actual)
    | none => dfm

/-- The canonical columns produced by the generic (non-address) mapping loop. -/
def nonAddrMappings (df : DF) (lookup : List (String × String))
    (mappings : List (String × String)) : DF :=
  mappings.foldl (nonAddrStep df lookup) []

/-- The inner loop of the address-field handling (lines 363-367): map the
resolved raw column onto every `address_*` canonical field the mappings send
it to. -/
def addrMapInserts (df : DF) (actual field : String)
    (mappings : List (String × String)) (d : DF) : DF :=
  mappings.foldl (fun d p =>
    if pyLower p.1 == pyLower field && startsWithStr "address_" p.2 then
      dictInsert d p.2 (getColD df actual)
    else d) d

/-- One step of the address-field loop of `import_data` (lines 359-370): map
the column onto any `address_*` canonical fields it resolves to, and collect
its NaN-filled series as an address part when the column has any non-null
value in the batch. -/
def addrStep (df : DF) (lookup : List (String × String))
    (mappings : List (String × String)) (acc : DF × List (List String))
    (field : String) : DF × List (List String) :=
  match lookupVal lookup (pyLower field) with
  | none => acc
  | some actual =>
    let dfm := addrMapInserts df actual field mappings acc.1
    let s := getColD df actual
    if s.any (fun v => v.isSome) then
      (dfm, acc.2 ++ [s.map (fun v => v.getD "")])
    else (dfm, acc.2)

/-- Append one suffix value to an already-composed address string
(the `f-string` lambdas of lines 380-396): appended only when the value is
non-null and non-empty after stripping. -/
def suffixRow (sep : String) (a : String) (c : Option String) : String :=
  match c with
  | some v => if pyStrip v == "" then a else a ++ sep ++ v
  | none => a

/-- One of the three post-composition passes of lines 379-396: when the named
canonical column exists and has a non-null value somewhere in the batch,
append its row value to the address with the given separator. -/
def suffixPass (dfm : DF) (key sep : String) : DF :=
  match lookupVal dfm key, lookupVal dfm "address" with
  | some s, some addr =>
    if s.any (fun v => v.isSome) then
      dictInsert dfm "address"
        (List.zipWith (fun a c => some (suffixRow sep (a.getD "") c)) addr s)
    else dfm
  | _, _ => dfm

/-- The address handling of the generic branch for a found `address` rule
(lines 343-396), applied after the non-address mapping loop. -/
def genericBranchRule (df : DF) (mappings : List (String × String))
    (rule : AddressRule) : DF :=
  let lookup := colLookup (df.map (·.1))
  let dfm0 := nonAddrMappings df lookup mappings
  if rule.fields.length == 1 then
    match lookupVal lookup (pyLower (rule.fields.headD "")) with
    | some actual => dictInsert dfm0 "address" (getColD df actual)
    | none => dfm0
  else
    let fold := rule.fields.foldl (addrStep df lookup mappings) (dfm0, [])
    if fold.2.isEmpty then fold.1
    else
      let addr := (composeRows rule.separator fold.2 (dfNumRows df)).map some
      let dfm2 := dictInsert fold.1 "address" addr
      let dfm3 := suffixPass dfm2 "city" ", "
      let dfm4 := suffixPass dfm3 "state" ", "
      suffixPass dfm4 "zip_code" " "

/-- The generic (profile-driven) branch of `import_data` (lines 329-396). -/
def genericBranch (df : DF) (mappings : List (String × String))
    (address_fields : List (String × AddressRule)) : DF :=
  let lookup := colLookup (df.map (·.1))
  let dfm0 := nonAddrMappings df lookup mappings
  match lookupVal address_fields "address" with
  | none => dfm0
  | some rule => genericBranchRule df mappings rule

/-- The guard of the hard-coded Washington branch of `import_data`
(line 171): the header contains `statevoterid`, `fname` and `lname`
case-insensitively. -/
def waGuard (df : DF) : Bool :=
  let lookup := colLookup (df.map (·.1))
  (lookupVal lookup "statevoterid").isSome &&
    (lookupVal lookup "fname").isSome && (lookupVal lookup "lname").isSome

/-- The `import_data` column-mapping pipeline (import_to_sqlite.py
lines 146-412): the mapped frame whose rows are appended chunk-wise to the
destination table.  The hard-coded Washington branch is taken when the header
contains `statevoterid`, `fname` and `lname` (case-insensitively). -/
def import_data (df : DF) (mappings : List (String × String))
    (address_fields : List (String × AddressRule)) : DF :=
  if waGuard df then waBranch df
  else genericBranch df mappings address_fields

/-- The rows committed to the destination table by `import_data`: every row of
the mapped frame, laid out over the full table schema, with `none` (SQL NULL)
for table columns the mapped frame does not provide. -/
def sinkRows (df : DF) (mappings : List (String × String))
    (address_fields : List (String × AddressRule)) :
    List (List (String × Option String)) :=
  let dfm := import_data df mappings address_fields
  (List.range (dfNumRows dfm)).map (fun i =>
    tableColumns.map (fun c =>
      (c, ((lookupVal dfm c).bind (fun s => s.get? i)).join)))

/-- A jurisdiction profile as consumed by `import_main`: the
`column_mappings` and `address_fields` entries of the stored config. -/
structure StateConfig where
  column_mappings : List (String × String)
  address_fields : List (String × AddressRule)

/-- The canonical rows produced by `import_main` (import_to_sqlite.py
lines 463-619) outside the `wa_test_data.csv` special case: the
caller-supplied state code selects the config file and the destination table
name only; the rows handed to the sink come from `import_data` applied to the
stored profile, with the state code not passed into row construction. -/
def import_main_rows (state_code : String) (config : StateConfig) (df : DF) :
    DF :=
  let _ := state_code
  import_data df config.column_mappings config.address_fields

/-- The required canonical fields, `VoterSchema.required_fields`
(core/schema.py lines 33-45). -/
def required_fields : List String :=
  ["first_name", "last_name", "birth_date", "registration_date", "address",
   "city", "state", "zip_code"]

/-- Spec-level description of the address parts selected by the multi-column
rule: for each listed column (in rule order) that resolves case-insensitively
in the header and has at least one non-missing value in the batch, its series
with missing values replaced by the empty string. -/
def selectedParts (df : DF) (lookup : List (String × String))
    (fields : List String) : List (List String) :=
  fields.filterMap (fun f =>
    (lookupVal lookup (pyLower f)).bind (fun actual =>
      let s := getColD df actual
      if s.any (fun v => v.isSome) then some (s.map (fun v => v.getD ""))
      else none))

/-- Spec-level description of one suffix pass: when the canonical column
exists and holds a non-null value somewhere in the batch, append its per-row
non-empty values to the composed address with the given separator. -/
def suffixSpec (addr : List String) (col : Option Series) (sep : String) :
    List String :=
  match col with
  | some s =>
    if s.any (fun v => v.isSome) then
      List.zipWith (fun a c => suffixRow sep a c) addr s
    else addr
  | none => addr

/-- Spec-level description (amended C5) of the canonical address column
produced by the profile-driven path for a multi-column rule: join, per row
and with the rule's separator, the trim-non-empty values of the selected
parts; when no part is selected the address column is absent; otherwise the
canonical city, state and zip_code columns produced by the non-address
mapping loop are appended again (city and state with a comma separator, zip
with a space). -/
def composeAddressSpec (df : DF) (mappings : List (String × String))
    (rule : AddressRule) : Option Series :=
  let lookup := colLookup (df.map (·.1))
  let parts := selectedParts df lookup rule.fields
  if parts.isEmpty then none
  else
    let joined := composeRows rule.separator parts (dfNumRows df)
    let afterCity := suffixSpec joined
      (lookupVal (nonAddrMappings df lookup mappings) "city") ", "
    let afterState := suffixSpec afterCity
      (lookupVal (nonAddrMappings df lookup mappings) "state") ", "
    some ((suffixSpec afterState
      (lookupVal (nonAddrMappings df lookup mappings) "zip_code") " ").map some)

/-- The address value asserted by the claim (C5) for the profile-driven path:
per row, the rule's listed column values with missing values replaced by the
empty string, values empty after trimming dropped, and the rest joined with
the rule's separator. -/
def claimedAddressC5 (df : DF) (rule : AddressRule) : List String :=
  (List.range (dfNumRows df)).map (fun i =>
    String.intercalate rule.separator
      ((rule.fields.map
          (fun f => (((getColD df f).get? i).getD none).getD "")).filter
        (fun v => !(pyStrip v == ""))))

/-- The first header column assigned by the pattern matcher to a field with
the given patterns: the first entry of the case-insensitive lookup whose
lowercased name contains one of the patterns. -/
def firstMatchFor (cols : List String) (pats : List String) : Option String :=
  ((colLookup cols).find?
    (fun p => pats.any (fun pat => containsStr pat p.1))).map (·.2)

/-- A resolver output pair is justified by one of the pattern tables: the
field has a pattern row in the tables and the assigned column is the first
lookup entry containing one of its patterns. -/
def JustifiedBy (lookup : List (String × String))
    (tables : List (String × List String)) (q : String × String) : Prop :=
  ∃ pats, (q.2, pats) ∈ tables ∧
    (lookup.find? (fun p => pats.any (fun pat => containsStr pat p.1))).map
      (·.2) = some q.1

/-- The single address rule returned by the Composer for a header. -/
def composerRule (cols : List String) : AddressRule :=
  (((analyze_address_fields cols).head?).map (·.2)).getD ⟨[], " "⟩

/-- The spec's description of the composed field list: the header columns of
each address component, in header order within a component, concatenated in
the fixed canonical component order. -/
def canonicalArrangement (cols : List String) : List String :=
  (address_component_order.map (fun comp =>
    cols.filter (fun c => classifyAddrCol c == some comp))).flatten

end VoterFramework

namespace VoterFramework

theorem lookupVal_cons {α : Type} (p : String × α) (d : List (String × α))
    (k : String) :
    lookupVal (p :: d) k = if p.1 == k then some p.2 else lookupVal d k := by
  simp only [lookupVal, List.find?]
  cases h : p.1 == k <;> simp [h]

theorem lookupVal_dictInsert_self {α : Type} (d : List (String × α))
    (k : String) (v : α) : lookupVal (dictInsert d k v) k = some v := by
  induction d with
  | nil => rw [dictInsert, lookupVal_cons, if_pos (beq_self_eq_true k)]
  | cons p d ih =>
    rw [dictInsert]
    by_cases h : (p.1 == k) = true
    · rw [if_pos h, lookupVal_cons, if_pos (beq_self_eq_true k)]
    · rw [if_neg h, lookupVal_cons, if_neg h, ih]

theorem lookupVal_dictInsert_ne {α : Type} (d : List (String × α))
    (k k' : String) (v : α) (hne : k' ≠ k) :
    lookupVal (dictInsert d k v) k' = lookupVal d k' := by
  have hkk : ¬ (k == k') = true := fun hh => hne (Eq.symm (eq_of_beq hh))
  induction d with
  | nil => rw [dictInsert, lookupVal_cons, if_neg hkk]
  | cons p d ih =>
    rw [dictInsert]
    by_cases h : (p.1 == k) = true
    · have hp : p.1 = k := eq_of_beq h
      have h2 : ¬ (p.1 == k') = true := by rw [hp]; exact hkk
      rw [if_pos h, lookupVal_cons, if_neg hkk, lookupVal_cons, if_neg h2]
    · rw [if_neg h, lookupVal_cons, lookupVal_cons, ih]

theorem mem_dictInsert {α : Type} {q : String × α} {d : List (String × α)}
    {k : String} {v : α} (h : q ∈ dictInsert d k v) :
    q = (k, v) ∨ q ∈ d := by
  induction d with
  | nil =>
    rw [dictInsert] at h
    exact Or.inl (by simpa using h)
  | cons p d ih =>
    rw [dictInsert] at h
    by_cases hc : (p.1 == k) = true
    · rw [if_pos hc] at h
      rcases List.mem_cons.mp h with h1 | h2
      · exact Or.inl h1
      · exact Or.inr (List.mem_cons_of_mem p h2)
    · rw [if_neg hc] at h
      rcases List.mem_cons.mp h with h1 | h2
      · exact Or.inr (h1 ▸ List.mem_cons_self p d)
      · rcases ih h2 with h3 | h4
        · exact Or.inl h3
        · exact Or.inr (List.mem_cons_of_mem p h4)

theorem mem_keys_dictInsert {α : Type} {a : String} {d : List (String × α)}
    {k : String} {v : α} (h : a ∈ (dictInsert d k v).map Prod.fst) :
    a = k ∨ a ∈ d.map Prod.fst := by
  obtain ⟨q, hq, hfq⟩ := List.mem_map.mp h
  rcases mem_dictInsert hq with h1 | h2
  · exact Or.inl (by rw [← hfq, h1])
  · exact Or.inr (List.mem_map.mpr ⟨q, h2, hfq⟩)

theorem keys_nodup_dictInsert {α : Type} {d : List (String × α)} {k : String}
    {v : α} (h : (d.map Prod.fst).Nodup) :
    ((dictInsert d k v).map Prod.fst).Nodup := by
  induction d with
  | nil => rw [dictInsert]; exact List.nodup_singleton k
  | cons p d ih =>
    rw [List.map_cons, List.nodup_cons] at h
    rw [dictInsert]
    by_cases hc : (p.1 == k) = true
    · have hp : p.1 = k := by simpa using hc
      rw [if_pos hc, List.map_cons, List.nodup_cons]
      exact ⟨hp ▸ h.1, h.2⟩
    · rw [if_neg hc, List.map_cons, List.nodup_cons]
      refine ⟨?_, ih h.2⟩
      intro hmem
      rcases mem_keys_dictInsert hmem with h1 | h2
      · exact hc (by simpa using h1)
      · exact h.1 h2

theorem keys_nodup_assignFold (tables : List (String × List String))
    (lookup : List (String × String)) :
    ∀ m : List (String × String), (m.map Prod.fst).Nodup →
      ((tables.foldl (assignField lookup) m).map Prod.fst).Nodup := by
  induction tables with
  | nil => exact fun m h => h
  | cons e ts ih =>
    intro m h
    apply ih
    unfold assignField
    cases hf : lookup.find? (fun p => e.2.any (fun pat => containsStr pat p.1))
    · exact h
    · exact keys_nodup_dictInsert h

theorem keys_nodup_stateFold (lookup : List (String × String))
    (stateMap : List (String × String)) :
    ∀ m : List (String × String), (m.map Prod.fst).Nodup →
      ((stateMap.foldl (stateMapStep lookup) m).map Prod.fst).Nodup := by
  induction stateMap with
  | nil => exact fun m h => h
  | cons e ts ih =>
    intro m h
    apply ih
    unfold stateMapStep
    cases lookupVal lookup (pyLower e.1)
    · exact h
    · exact keys_nodup_dictInsert h

theorem keys_nodup_buildStateMappings (lookup : List (String × String))
    (stateMap : List (String × String)) :
    ((buildStateMappings lookup stateMap).map Prod.fst).Nodup :=
  keys_nodup_stateFold lookup stateMap [] List.nodup_nil

theorem assignFold_justified (lookup : List (String × String))
    (tables₀ : List (String × List String)) :
    ∀ (tables : List (String × List String)) (m : List (String × String)),
      (∀ e ∈ tables, e ∈ tables₀) →
      (∀ q ∈ m, JustifiedBy lookup tables₀ q) →
      ∀ q ∈ tables.foldl (assignField lookup) m, JustifiedBy lookup tables₀ q := by
  intro tables
  induction tables with
  | nil => exact fun m _ hm q hq => hm q hq
  | cons e ts ih =>
    intro m hsub hm q hq
    refine ih (assignField lookup m e) (fun x hx => hsub x (List.mem_cons_of_mem e hx)) ?_ q hq
    intro q' hq'
    unfold assignField at hq'
    cases hf : lookup.find? (fun p => e.2.any (fun pat => containsStr pat p.1)) with
    | none =>
      rw [hf] at hq'
      exact hm q' hq'
    | some hit =>
      rw [hf] at hq'
      rcases mem_dictInsert hq' with hq2 | hmem
      · subst hq2
        exact ⟨e.2, hsub e (List.mem_cons_self e ts), by rw [hf]; rfl⟩
      · exact hm q' hmem

/-- C3 counterexample: the claim is that a raw column, once assigned to a
canonical field, is skipped in all further matching, so that a lone column
matching both the residential city patterns and the mailing-city patterns
stays with the field that claimed it first (residential `city`).  On the
code, the single header column `MailCity` is first assigned to `city` by the
name-pattern pass and then reassigned to `mailing_city` by the mailing pass:
the returned mapping sends it to `mailing_city`, not to `city`. -/
theorem resolver_reassigns_claimed_column :
    analyze_columns ["MailCity"] = [("MailCity", "mailing_city")] ∧
    ((analyze_columns ["MailCity"]).any (fun q => q.2 == "city")) = false := by
  constructor
  · decide
  · decide

/-- C3 amended: a raw column already assigned to a canonical field is not
skipped in later matching — a later pattern table that matches it overwrites
the assignment, so the last table to claim a column wins (a lone `MailCity`
column ends up mapped to `mailing_city`, not to the residential `city` field
that claimed it first).  What does hold is that the returned mapping never
assigns one raw column to two canonical fields: its keys are unique for every
header. -/
theorem resolver_last_assignment_wins_keys_unique :
    (∀ cols : List String, ((analyze_columns cols).map Prod.fst).Nodup) ∧
    analyze_columns ["MailCity"] = [("MailCity", "mailing_city")] := by
  constructor
  · intro cols
    unfold analyze_columns
    cases stateFormat cols
    · exact keys_nodup_assignFold allPatternTables (colLookup cols) []
        List.nodup_nil
    · exact keys_nodup_buildStateMappings (colLookup cols) _
  · decide

/-- C4 counterexample: the claim is that exact pattern matches are preferred
over substring matches, so that a raw column exactly equal to a pattern beats
an earlier column that only contains it.  On the code, with header
`["mycity", "city"]` and the `city` field patterns, the earlier column
`mycity` (substring match) wins and the later exact-match column `city` is
left unmapped. -/
theorem resolver_no_exact_match_priority :
    analyze_columns ["mycity", "city"] = [("mycity", "city")] ∧
    ((analyze_columns ["mycity", "city"]).any (fun q => q.1 == "city")) =
      false := by
  constructor
  · decide
  · decide

/-- C4 amended: the resolver tests substring containment only — there is no
exact-match pass.  Every pair of the returned mapping (on the pattern path)
is justified by containment alone: the assigned column's lowercased name
contains one of the field's patterns, and no priority is given to exact
equality (the counterexample shows an exact match losing to an earlier
containment match). -/
theorem resolver_matches_by_containment (cols : List String) (c f : String)
    (hstate : stateFormat cols = none)
    (hmem : (c, f) ∈ analyze_columns cols) :
    ∃ pats lo, (f, pats) ∈ allPatternTables ∧ (lo, c) ∈ colLookup cols ∧
      pats.any (fun pat => containsStr pat lo) = true := by
  unfold analyze_columns at hmem
  rw [hstate] at hmem
  obtain ⟨pats, hpats, hfind⟩ :=
    assignFold_justified (colLookup cols) allPatternTables allPatternTables []
      (fun e he => he) (by intro q hq; exact absurd hq (List.not_mem_nil q))
      (c, f) hmem
  obtain ⟨hit, hfind2, hmap⟩ := Option.map_eq_some'.mp hfind
  have hc : hit.2 = c := hmap
  refine ⟨pats, hit.1, hpats, ?_, ?_⟩
  · rw [← hc]
    simpa using List.mem_of_find?_eq_some hfind2
  · simpa using List.find?_some hfind2

/-- C8 counterexample: the claim is that when two raw columns match the same
pattern of a canonical field, the field is assigned to the first column in
header order.  On the code, with header `["MailCity", "City2"]` both columns
match the `city` pattern of the residential `city` field and `MailCity` is
claimed first — but the mailing pass then reassigns `MailCity` to
`mailing_city`, so the returned mapping assigns the `city` field to no column
at all. -/
theorem resolver_tie_break_first_match_lost :
    analyze_columns ["MailCity", "City2"] = [("MailCity", "mailing_city")] ∧
    ((analyze_columns ["MailCity", "City2"]).any (fun q => q.2 == "city")) =
      false := by
  constructor
  · decide
  · decide

/-- C8 amended: on the pattern path, a canonical field can only ever be
assigned to the first header column (in lookup iteration order) whose
lowercased name contains one of the field's patterns — later matching columns
never receive the field, and the tie-break is deterministic because the
resolver is a pure function of the header.  However, if a later pattern table
reassigns that first column, the field ends up assigned to no column (see the
counterexample), so the first matching column wins the assignment only as
long as nothing later claims it. -/
theorem resolver_first_containment_match_wins (cols : List String)
    (c f : String) (hstate : stateFormat cols = none)
    (hmem : (c, f) ∈ analyze_columns cols) :
    ∃ pats, (f, pats) ∈ allPatternTables ∧ firstMatchFor cols pats = some c := by
  unfold analyze_columns at hmem
  rw [hstate] at hmem
  obtain ⟨pats, hpats, hfind⟩ :=
    assignFold_justified (colLookup cols) allPatternTables allPatternTables []
      (fun e he => he) (by intro q hq; exact absurd hq (List.not_mem_nil q))
      (c, f) hmem
  exact ⟨pats, hpats, hfind⟩

/-- Witness for C8: the amended theorem applied at the header `["MailCity", "City2"]`. -/
theorem resolver_first_containment_match_wins_witness :
    stateFormat ["MailCity", "City2"] = none ∧
    ("MailCity", "mailing_city") ∈ analyze_columns ["MailCity", "City2"] ∧
    (∃ pats, ("mailing_city", pats) ∈ allPatternTables ∧
      firstMatchFor ["MailCity", "City2"] pats = some "MailCity") :=
  ⟨by decide, by decide,
    resolver_first_containment_match_wins ["MailCity", "City2"] "MailCity"
      "mailing_city" (by decide) (by decide)⟩

/-- Witness for C4: the amended theorem applied at the header `["mycity", "city"]`. -/
theorem resolver_matches_by_containment_witness :
    stateFormat ["mycity", "city"] = none ∧
    ("mycity", "city") ∈ analyze_columns ["mycity", "city"] ∧
    (∃ pats lo, ("city", pats) ∈ allPatternTables ∧
      (lo, "mycity") ∈ colLookup ["mycity", "city"] ∧
      pats.any (fun pat => containsStr pat lo) = true) :=
  ⟨by decide, by decide,
    resolver_matches_by_containment ["mycity", "city"] "mycity" "city"
      (by decide) (by decide)⟩

theorem dictInsert_eq_append {α : Type} (d : List (String × α)) (k : String)
    (v : α) (h : ∀ q ∈ d, q.1 ≠ k) : dictInsert d k v = d ++ [(k, v)] := by
  induction d with
  | nil => rfl
  | cons p d ih =>
    have hp : ¬ (p.1 == k) = true :=
      fun hh => h p (List.mem_cons_self p d) (eq_of_beq hh)
    rw [dictInsert, if_neg hp, List.cons_append,
      ih (fun q hq => h q (List.mem_cons_of_mem p hq))]

theorem buildComponentMap_eq (cols : List String) :
    ∀ acc : List (String × String), cols.Nodup →
      (∀ c ∈ cols, ∀ q ∈ acc, q.1 ≠ c) →
      buildComponentMap cols acc =
        acc ++ cols.filterMap
          (fun c => (classifyAddrCol c).map (fun comp => (c, comp))) := by
  induction cols with
  | nil => intro acc _ _; simp [buildComponentMap]
  | cons c rest ih =>
    intro acc hnd hdisj
    rw [List.nodup_cons] at hnd
    rw [buildComponentMap]
    cases hc : classifyAddrCol c with
    | none =>
      rw [ih acc hnd.2 (fun x hx q hq => hdisj x (List.mem_cons_of_mem c hx) q hq)]
      simp [List.filterMap_cons, hc]
    | some comp =>
      have hins : dictInsert acc c comp = acc ++ [(c, comp)] :=
        dictInsert_eq_append acc c comp
          (fun q hq => hdisj c (List.mem_cons_self c rest) q hq)
      have hred : (match some comp with
          | some comp => buildComponentMap rest (dictInsert acc c comp)
          | none => buildComponentMap rest acc) =
          buildComponentMap rest (dictInsert acc c comp) := rfl
      rw [hred, hins, ih (acc ++ [(c, comp)]) hnd.2 ?_]
      · simp [List.filterMap_cons, hc]
      · intro x hx q hq
        rcases List.mem_append.mp hq with h1 | h2
        · exact hdisj x (List.mem_cons_of_mem c hx) q h1
        · have hqc : q = (c, comp) := by simpa using h2
          rw [hqc]
          intro hcx
          have hcx2 : c = x := hcx
          exact hnd.1 (hcx2.symm ▸ hx)

theorem filterMapClassify_extract (cols : List String) (comp : String) :
    ((cols.filterMap
        (fun c => (classifyAddrCol c).map (fun k => (c, k)))).filter
      (fun e => e.2 == comp)).map (·.1) =
      cols.filter (fun c => classifyAddrCol c == some comp) := by
  induction cols with
  | nil => rfl
  | cons c rest ih =>
    cases hc : classifyAddrCol c with
    | none => simp [List.filterMap_cons, List.filter_cons, hc, ih]
    | some k =>
      by_cases hk : k = comp
      · simp [List.filterMap_cons, List.filter_cons, hc, hk, ih]
      · simp [List.filterMap_cons, List.filter_cons, hc, hk, ih]

theorem composer_fields_canonical (cols : List String) (hnd : cols.Nodup)
    (hnc : ∀ col ∈ cols, isCombinedB col = false) :
    composerRule cols = ⟨canonicalArrangement cols, " "⟩ := by
  have hfind : cols.find? (fun col => isCombinedB col) = none :=
    List.find?_eq_none.mpr (by intro x hx; simp [hnc x hx])
  have hmap : buildComponentMap cols [] =
      cols.filterMap (fun c => (classifyAddrCol c).map (fun comp => (c, comp))) := by
    rw [buildComponentMap_eq cols [] hnd
      (fun c _ q hq => absurd hq (List.not_mem_nil q))]
    simp
  unfold composerRule
  simp only [analyze_address_fields, hfind, hmap, List.head?_cons,
    Option.map_some', Option.getD_some]
  refine congrArg (fun fs => AddressRule.mk fs " ") ?_
  unfold canonicalArrangement
  refine congrArg List.flatten ?_
  refine List.map_congr_left ?_
  intro comp _
  exact filterMapClassify_extract cols comp

theorem canonicalArrangement_perm {cols₁ cols₂ : List String}
    (h : cols₁.Perm cols₂) :
    (canonicalArrangement cols₁).Perm (canonicalArrangement cols₂) := by
  unfold canonicalArrangement
  induction address_component_order with
  | nil => exact List.Perm.refl _
  | cons comp rest ih =>
    simp only [List.map_cons, List.flatten_cons]
    exact List.Perm.append (h.filter _) ih

/-- C6: for headers with no combined-address column, the Composer emits the
matched raw columns in the fixed canonical component order, independent of
header order: the emitted list is the concatenation, over the canonical
component order, of the header-order columns classified into each component,
and for two headers that are permutations of each other the emitted lists are
permutations of each other (hence identical up to the relative order of
columns in the same component). -/
theorem composer_fixed_component_order (cols₁ cols₂ : List String)
    (hnd : cols₁.Nodup) (hperm : cols₁.Perm cols₂)
    (hnc : ∀ col ∈ cols₁, isCombinedB col = false) :
    composerRule cols₁ = ⟨canonicalArrangement cols₁, " "⟩ ∧
    composerRule cols₂ = ⟨canonicalArrangement cols₂, " "⟩ ∧
    (composerRule cols₁).fields.Perm (composerRule cols₂).fields := by
  have hnd₂ : cols₂.Nodup := hperm.nodup_iff.mp hnd
  have hnc₂ : ∀ col ∈ cols₂, isCombinedB col = false :=
    fun col hcol => hnc col (hperm.mem_iff.mpr hcol)
  have h1 := composer_fields_canonical cols₁ hnd hnc
  have h2 := composer_fields_canonical cols₂ hnd₂ hnc₂
  refine ⟨h1, h2, ?_⟩
  rw [h1, h2]
  exact canonicalArrangement_perm hperm

/-- Witness for C6: the theorem applied at two permuted Washington-style headers. -/
theorem composer_fixed_component_order_witness :
    (["RegStName", "RegCity", "RegStNum"].Nodup ∧
      ["RegStName", "RegCity", "RegStNum"].Perm
        ["RegCity", "RegStNum", "RegStName"] ∧
      ∀ col ∈ ["RegStName", "RegCity", "RegStNum"], isCombinedB col = false) ∧
    (composerRule ["RegStName", "RegCity", "RegStNum"] =
        ⟨canonicalArrangement ["RegStName", "RegCity", "RegStNum"], " "⟩ ∧
      composerRule ["RegCity", "RegStNum", "RegStName"] =
        ⟨canonicalArrangement ["RegCity", "RegStNum", "RegStName"], " "⟩ ∧
      (composerRule ["RegStName", "RegCity", "RegStNum"]).fields.Perm
        (composerRule ["RegCity", "RegStNum", "RegStName"]).fields) :=
  ⟨⟨by decide, by decide, by decide⟩,
    composer_fixed_component_order _ _ (by decide) (by decide) (by decide)⟩

/-- C7: when any header column matches the combined-address pattern set, the
Composer returns a rule selecting exactly one such column (the first) with a
single-space separator, ignoring every other column. -/
theorem composer_combined_shortcut (cols : List String)
    (h : ∃ col ∈ cols, isCombinedB col = true) :
    ∃ c ∈ cols, isCombinedB c = true ∧
      analyze_address_fields cols = [("address", ⟨[c], " "⟩)] := by
  cases hf : cols.find? (fun col => isCombinedB col) with
  | none =>
    obtain ⟨col, hcol, hcomb⟩ := h
    have := List.find?_eq_none.mp hf col hcol
    simp [hcomb] at this
  | some c =>
    refine ⟨c, List.mem_of_find?_eq_some hf, by simpa using List.find?_some hf, ?_⟩
    simp [analyze_address_fields, hf]

/-- Witness for C7: the theorem applied at the California-style header. -/
theorem composer_combined_shortcut_witness :
    (∃ col ∈ ["ADDRESS_FULL", "CITY", "STATE", "ZIP"],
      isCombinedB col = true) ∧
    (∃ c ∈ ["ADDRESS_FULL", "CITY", "STATE", "ZIP"], isCombinedB c = true ∧
      analyze_address_fields ["ADDRESS_FULL", "CITY", "STATE", "ZIP"] =
        [("address", ⟨[c], " "⟩)]) :=
  ⟨⟨"ADDRESS_FULL", by decide, by decide⟩,
    composer_combined_shortcut _ ⟨"ADDRESS_FULL", by decide, by decide⟩⟩

theorem buildComponentMap_keys (cols : List String) :
    ∀ (acc : List (String × String)) (q : String × String),
      q ∈ buildComponentMap cols acc → q ∈ acc ∨ q.1 ∈ cols := by
  induction cols with
  | nil => intro acc q hq; exact Or.inl (by simpa [buildComponentMap] using hq)
  | cons c rest ih =>
    intro acc q hq
    rw [buildComponentMap] at hq
    cases hc : classifyAddrCol c with
    | none =>
      rw [hc] at hq
      rcases ih acc q hq with h1 | h2
      · exact Or.inl h1
      · exact Or.inr (List.mem_cons_of_mem c h2)
    | some comp =>
      rw [hc] at hq
      rcases ih (dictInsert acc c comp) q hq with h1 | h2
      · rcases mem_dictInsert h1 with h3 | h4
        · exact Or.inr (by rw [h3]; exact List.mem_cons_self c rest)
        · exact Or.inl h4
      · exact Or.inr (List.mem_cons_of_mem c h2)

/-- C10: for every header — including the empty header and headers with no
address-like column — the Composer returns without error an association list
with exactly the key `address`, whose rule has a single-space separator and
fields drawn from the header; the empty header yields the empty rule
`{fields := [], separator := " "}`. -/
theorem composer_total_single_key :
    (∀ cols : List String, ∃ r : AddressRule,
      analyze_address_fields cols = [("address", r)] ∧ r.separator = " " ∧
      (r.fields.all (fun c => cols.contains c)) = true) ∧
    analyze_address_fields [] = [("address", ⟨[], " "⟩)] := by
  constructor
  · intro cols
    cases hf : cols.find? (fun col => isCombinedB col) with
    | some c =>
      refine ⟨⟨[c], " "⟩, by simp [analyze_address_fields, hf], rfl, ?_⟩
      have hc : c ∈ cols := List.mem_of_find?_eq_some hf
      simp [List.all_cons, hc]
    | none =>
      refine ⟨⟨(address_component_order.map (fun comp =>
          ((buildComponentMap cols []).filter
            (fun e => e.2 == comp)).map (·.1))).flatten, " "⟩,
        by simp only [analyze_address_fields, hf], rfl, ?_⟩
      rw [List.all_eq_true]
      intro x hx
      simp only [List.mem_flatten, List.mem_map] at hx
      obtain ⟨l, ⟨comp, _, hl⟩, hxl⟩ := hx
      rw [← hl] at hxl
      obtain ⟨e, he, hex⟩ := List.mem_map.mp hxl
      have he2 : e ∈ buildComponentMap cols [] := (List.mem_filter.mp he).1
      rcases buildComponentMap_keys cols [] e he2 with h1 | h2
      · exact absurd h1 (List.not_mem_nil e)
      · rw [← hex]
        exact List.elem_eq_true_of_mem h2
  · decide

theorem addrMapInserts_lookup (df : DF) (actual field : String)
    (mappings : List (String × String)) (k : String)
    (hk : startsWithStr "address_" k = false) :
    ∀ d : DF, lookupVal (addrMapInserts df actual field mappings d) k =
      lookupVal d k := by
  induction mappings with
  | nil => intro d; rfl
  | cons p ms ih =>
    intro d
    have hstep : addrMapInserts df actual field (p :: ms) d =
        addrMapInserts df actual field ms
          (if pyLower p.1 == pyLower field && startsWithStr "address_" p.2 then
            dictInsert d p.2 (getColD df actual)
          else d) := rfl
    rw [hstep, ih]
    by_cases hc :
        (pyLower p.1 == pyLower field && startsWithStr "address_" p.2) = true
    · rw [if_pos hc]
      have h2 : startsWithStr "address_" p.2 = true := by
        cases hsw : startsWithStr "address_" p.2
        · rw [hsw, Bool.and_false] at hc
          exact absurd hc (by decide)
        · rfl
      have hne : k ≠ p.2 := by
        intro hh
        rw [hh, h2] at hk
        exact absurd hk (by decide)
      exact lookupVal_dictInsert_ne d p.2 k _ hne
    · rw [if_neg hc]

theorem addrStep_fst_none (df : DF) (lookup mappings : List (String × String))
    (acc : DF × List (List String)) (field : String)
    (h : lookupVal lookup (pyLower field) = none) :
    (addrStep df lookup mappings acc field).1 = acc.1 := by
  simp only [addrStep, h]

theorem addrStep_fst_some (df : DF) (lookup mappings : List (String × String))
    (acc : DF × List (List String)) (field actual : String)
    (h : lookupVal lookup (pyLower field) = some actual) :
    (addrStep df lookup mappings acc field).1 =
      addrMapInserts df actual field mappings acc.1 := by
  simp only [addrStep, h]
  by_cases hs : ((getColD df actual).any (fun v => v.isSome)) = true
  · rw [if_pos hs]
  · rw [if_neg hs]

theorem addrStep_snd_none (df : DF) (lookup mappings : List (String × String))
    (acc : DF × List (List String)) (field : String)
    (h : lookupVal lookup (pyLower field) = none) :
    (addrStep df lookup mappings acc field).2 = acc.2 := by
  simp only [addrStep, h]

theorem addrStep_snd_some (df : DF) (lookup mappings : List (String × String))
    (acc : DF × List (List String)) (field actual : String)
    (h : lookupVal lookup (pyLower field) = some actual) :
    (addrStep df lookup mappings acc field).2 =
      (if (getColD df actual).any (fun v => v.isSome) then
        acc.2 ++ [(getColD df actual).map (fun v => v.getD "")]
      else acc.2) := by
  simp only [addrStep, h]
  by_cases hs : ((getColD df actual).any (fun v => v.isSome)) = true
  · rw [if_pos hs, if_pos hs]
  · rw [if_neg hs, if_neg hs]

theorem addrFold_snd (df : DF) (lookup mappings : List (String × String)) :
    ∀ (fields : List String) (acc : DF × List (List String)),
      (fields.foldl (addrStep df lookup mappings) acc).2 =
        acc.2 ++ selectedParts df lookup fields := by
  intro fields
  induction fields with
  | nil => intro acc; simp [selectedParts]
  | cons f fs ih =>
    intro acc
    rw [List.foldl_cons, ih]
    cases h : lookupVal lookup (pyLower f) with
    | none =>
      rw [addrStep_snd_none df lookup mappings acc f h]
      simp only [selectedParts, List.filterMap_cons, h, Option.none_bind]
    | some actual =>
      rw [addrStep_snd_some df lookup mappings acc f actual h]
      by_cases hs : ((getColD df actual).any (fun v => v.isSome)) = true
      · rw [if_pos hs]
        simp only [selectedParts, List.filterMap_cons, h, Option.some_bind, hs,
          if_pos]
        rw [List.append_assoc, List.singleton_append]
      · rw [if_neg hs]
        simp only [selectedParts, List.filterMap_cons, h, Option.some_bind]
        rw [if_neg hs]

theorem addrFold_fst_lookup (df : DF) (lookup mappings : List (String × String))
    (k : String) (hk : startsWithStr "address_" k = false) :
    ∀ (fields : List String) (acc : DF × List (List String)),
      lookupVal (fields.foldl (addrStep df lookup mappings) acc).1 k =
        lookupVal acc.1 k := by
  intro fields
  induction fields with
  | nil => intro acc; rfl
  | cons f fs ih =>
    intro acc
    rw [List.foldl_cons, ih]
    cases h : lookupVal lookup (pyLower f) with
    | none => rw [addrStep_fst_none df lookup mappings acc f h]
    | some actual =>
      rw [addrStep_fst_some df lookup mappings acc f actual h]
      exact addrMapInserts_lookup df actual f mappings k hk acc.1

theorem nonAddrStep_lookup (df : DF) (lookup : List (String × String))
    (d : DF) (p : String × String) (k : String) (hne : p.2 ≠ k) :
    lookupVal (nonAddrStep df lookup d p) k = lookupVal d k := by
  unfold nonAddrStep
  by_cases h1 : startsWithStr "address_" p.2 = true
  · rw [if_pos h1]
  · rw [if_neg h1]
    cases h2 : lookupVal lookup (pyLower p.1) with
    | none => rfl
    | some actual => exact lookupVal_dictInsert_ne d p.2 k _ (Ne.symm hne)

theorem nonAddrFold_lookup_none (df : DF) (lookup : List (String × String))
    (k : String) :
    ∀ (mappings : List (String × String)) (d : DF),
      lookupVal d k = none → (∀ p ∈ mappings, p.2 ≠ k) →
      lookupVal (mappings.foldl (nonAddrStep df lookup) d) k = none := by
  intro mappings
  induction mappings with
  | nil => intro d h _; exact h
  | cons p ms ih =>
    intro d h hall
    rw [List.foldl_cons]
    refine ih (nonAddrStep df lookup d p) ?_
      (fun q hq => hall q (List.mem_cons_of_mem p hq))
    rw [nonAddrStep_lookup df lookup d p k (hall p (List.mem_cons_self p ms))]
    exact h

theorem nonAddrMappings_lookup_none (df : DF)
    (lookup mappings : List (String × String)) (k : String)
    (hall : ∀ p ∈ mappings, p.2 ≠ k) :
    lookupVal (nonAddrMappings df lookup mappings) k = none :=
  nonAddrFold_lookup_none df lookup k mappings [] rfl hall

theorem suffixPass_other (dfm : DF) (key sep k : String) (hk : k ≠ "address") :
    lookupVal (suffixPass dfm key sep) k = lookupVal dfm k := by
  unfold suffixPass
  cases h1 : lookupVal dfm key with
  | none =>
    cases h2 : lookupVal dfm "address" with
    | none => rfl
    | some addr => rfl
  | some s =>
    cases h2 : lookupVal dfm "address" with
    | none => rfl
    | some addr =>
      show lookupVal
          (if (s.any fun v => v.isSome) = true then
            dictInsert dfm "address"
              (List.zipWith (fun a c => some (suffixRow sep (a.getD "") c))
                addr s)
          else dfm) k = lookupVal dfm k
      by_cases hs : (s.any (fun v => v.isSome)) = true
      · rw [if_pos hs]
        exact lookupVal_dictInsert_ne dfm "address" k _ hk
      · rw [if_neg hs]

theorem suffixPass_addr (dfm : DF) (key sep : String) (addr : List String)
    (haddr : lookupVal dfm "address" = some (addr.map some)) :
    lookupVal (suffixPass dfm key sep) "address" =
      some ((suffixSpec addr (lookupVal dfm key) sep).map some) := by
  unfold suffixPass
  rw [haddr]
  cases h1 : lookupVal dfm key with
  | none => simpa [suffixSpec] using haddr
  | some s =>
    show lookupVal
        (if (s.any fun v => v.isSome) = true then
          dictInsert dfm "address"
            (List.zipWith (fun a c => some (suffixRow sep (a.getD "") c))
              (List.map some addr) s)
        else dfm) "address" =
      some ((suffixSpec addr (some s) sep).map some)
    by_cases hs : (s.any (fun v => v.isSome)) = true
    · rw [if_pos hs, lookupVal_dictInsert_self]
      simp only [suffixSpec, hs, if_pos]
      rw [List.zipWith_map_left, List.map_zipWith]
      simp only [Option.getD_some]
    · rw [if_neg hs]
      simp only [suffixSpec, hs]
      rw [if_neg (by simp [hs]), haddr]

theorem suffixChain_addr (dfm2 : DF) (joined : List String)
    (hA : lookupVal dfm2 "address" = some (joined.map some)) :
    lookupVal (suffixPass (suffixPass (suffixPass dfm2 "city" ", ")
        "state" ", ") "zip_code" " ") "address" =
      some ((suffixSpec (suffixSpec (suffixSpec joined
          (lookupVal dfm2 "city") ", ")
        (lookupVal dfm2 "state") ", ") (lookupVal dfm2 "zip_code") " ").map
          some) := by
  have h3 := suffixPass_addr dfm2 "city" ", " joined hA
  have hs3 : lookupVal (suffixPass dfm2 "city" ", ") "state" =
      lookupVal dfm2 "state" := suffixPass_other _ _ _ _ (by decide)
  have hz3 : lookupVal (suffixPass dfm2 "city" ", ") "zip_code" =
      lookupVal dfm2 "zip_code" := suffixPass_other _ _ _ _ (by decide)
  have h4 := suffixPass_addr (suffixPass dfm2 "city" ", ") "state" ", "
    (suffixSpec joined (lookupVal dfm2 "city") ", ") h3
  rw [hs3] at h4
  have hz4 : lookupVal (suffixPass (suffixPass dfm2 "city" ", ") "state" ", ")
      "zip_code" = lookupVal dfm2 "zip_code" := by
    rw [suffixPass_other _ _ _ _ (by decide)]
    exact hz3
  have h5 := suffixPass_addr _ "zip_code" " " _ h4
  rw [hz4] at h5
  exact h5

/-- C5 amended: on the profile-driven path with a multi-column address rule
(and no column mapping targeting `address` directly), the canonical address
column is obtained by joining, per row and with the rule's separator, the
trim-non-empty values of the rule's listed columns that resolve in the header
and have a non-missing value somewhere in the batch (missing values replaced
by the empty string); when no listed column qualifies, the address column is
absent (null) rather than the empty string; otherwise the canonical city,
state and zip_code values produced by the mapping are afterwards appended
again to the address (city and state with a comma, zip with a space), so the
claimed plain join only describes the value before these extra suffixes. -/
theorem address_assembly_characterization (df : DF)
    (mappings : List (String × String)) (rule : AddressRule)
    (hwa : waGuard df = false)
    (hlen : (rule.fields.length == 1) = false)
    (hno : ∀ p ∈ mappings, p.2 ≠ "address") :
    lookupVal (import_data df mappings [("address", rule)]) "address" =
      composeAddressSpec df mappings rule := by
  have hg : import_data df mappings [("address", rule)] =
      genericBranchRule df mappings rule := by
    unfold import_data
    rw [if_neg (by simp [hwa])]
    rfl
  rw [hg]
  simp only [genericBranchRule, composeAddressSpec]
  rw [if_neg (by simp [hlen])]
  generalize hLK : colLookup (df.map fun x => x.1) = LK
  generalize hNAM : nonAddrMappings df LK mappings = NAM
  have hfold2 : (rule.fields.foldl (addrStep df LK mappings) (NAM, [])).2 =
      selectedParts df LK rule.fields := by
    rw [addrFold_snd df LK mappings rule.fields (NAM, [])]
    exact List.nil_append _
  rw [hfold2]
  by_cases hparts : (selectedParts df LK rule.fields).isEmpty = true
  · rw [if_pos hparts, if_pos hparts]
    rw [addrFold_fst_lookup df LK mappings "address" (by decide) rule.fields
      (NAM, [])]
    rw [← hNAM]
    exact nonAddrMappings_lookup_none df LK mappings "address" hno
  · rw [if_neg hparts, if_neg hparts]
    have hc : lookupVal
        (rule.fields.foldl (addrStep df LK mappings) (NAM, [])).1 "city" =
        lookupVal NAM "city" := by
      rw [addrFold_fst_lookup df LK mappings "city" (by decide) rule.fields
        (NAM, [])]
    have hs : lookupVal
        (rule.fields.foldl (addrStep df LK mappings) (NAM, [])).1 "state" =
        lookupVal NAM "state" := by
      rw [addrFold_fst_lookup df LK mappings "state" (by decide) rule.fields
        (NAM, [])]
    have hz : lookupVal
        (rule.fields.foldl (addrStep df LK mappings) (NAM, [])).1 "zip_code" =
        lookupVal NAM "zip_code" := by
      rw [addrFold_fst_lookup df LK mappings "zip_code" (by decide) rule.fields
        (NAM, [])]
    generalize hF : (rule.fields.foldl (addrStep df LK mappings) (NAM, [])).1
      = fold1 at hc hs hz ⊢
    generalize hJ : composeRows rule.separator
      (selectedParts df LK rule.fields) (dfNumRows df) = joined
    have h2c : lookupVal (dictInsert fold1 "address" (joined.map some))
        "city" = lookupVal NAM "city" := by
      rw [lookupVal_dictInsert_ne _ _ _ _ (by decide)]
      exact hc
    have h2s : lookupVal (dictInsert fold1 "address" (joined.map some))
        "state" = lookupVal NAM "state" := by
      rw [lookupVal_dictInsert_ne _ _ _ _ (by decide)]
      exact hs
    have h2z : lookupVal (dictInsert fold1 "address" (joined.map some))
        "zip_code" = lookupVal NAM "zip_code" := by
      rw [lookupVal_dictInsert_ne _ _ _ _ (by decide)]
      exact hz
    rw [suffixChain_addr (dictInsert fold1 "address" (joined.map some)) joined
      (lookupVal_dictInsert_self _ _ _), h2c, h2s, h2z]

/-- Witness for C5: the amended theorem applied at a concrete two-column rule. -/
theorem address_assembly_characterization_witness :
    (waGuard [("addr1", [some "123 Main"]), ("city1", [some "Seattle"])] =
        false ∧
      (((⟨["addr1", "city1"], " "⟩ : AddressRule).fields.length == 1) =
        false) ∧
      ∀ p ∈ [("city1", "city")], (p.2 : String) ≠ "address") ∧
    lookupVal
      (import_data [("addr1", [some "123 Main"]), ("city1", [some "Seattle"])]
        [("city1", "city")]
        [("address", ⟨["addr1", "city1"], " "⟩)]) "address" =
      composeAddressSpec
        [("addr1", [some "123 Main"]), ("city1", [some "Seattle"])]
        [("city1", "city")] ⟨["addr1", "city1"], " "⟩ :=
  ⟨⟨by decide, by decide, by decide⟩,
    address_assembly_characterization
      [("addr1", [some "123 Main"]), ("city1", [some "Seattle"])]
      [("city1", "city")] ⟨["addr1", "city1"], " "⟩
      (by decide) (by decide) (by decide)⟩

/-- C5 counterexample: the claim is that the canonical address equals the
rule's listed per-row values (missing replaced by the empty string, values
empty after trimming dropped) joined by the rule's separator, with no double
separators.  On the code, a rule listing a street column and a city column
whose city column is also mapped to the canonical `city` field yields
"123 Main Seattle, Seattle": the city value is appended a second time with a
comma after the plain join, so the address differs from the claimed join
"123 Main Seattle". -/
theorem address_assembly_appends_city_again :
    lookupVal
      (import_data [("addr1", [some "123 Main"]), ("city1", [some "Seattle"])]
        [("city1", "city")]
        [("address", ⟨["addr1", "city1"], " "⟩)]) "address" =
      some [some "123 Main Seattle, Seattle"] ∧
    claimedAddressC5
      [("addr1", [some "123 Main"]), ("city1", [some "Seattle"])]
      ⟨["addr1", "city1"], " "⟩ = ["123 Main Seattle"] ∧
    ("123 Main Seattle, Seattle" == "123 Main Seattle") = false := by
  refine ⟨by decide, by decide, by decide⟩

/-- C1: the Import Engine performs no up-front duplicate-identifier scan.
Evaluating the embedded `import_data` pipeline on the duplicate fixture of
`tests/test_import_duplicates.py` (two rows sharing voter id `12345`, with
that test's column mappings and single-column address rule) shows that both
rows — duplicates included — are built into canonical rows and handed to the
sink: nothing aborts, and no duplicate count or sample is computed anywhere
in the pipeline, contradicting the repo's own test, which demands an abort
with the message `ERROR: Found 2 duplicate voter IDs in the input data`. -/
theorem import_sends_duplicate_identifiers_to_sink :
    (sinkRows
      [("voter_id", [some "12345", some "12345"]),
       ("first_name", [some "JOHN", some "JANE"]),
       ("last_name", [some "SMITH", some "DOE"]),
       ("address", [some "123 MAIN ST", some "456 OAK AVE"]),
       ("city", [some "SEATTLE", some "PORTLAND"]),
       ("state", [some "WA", some "OR"]),
       ("zip_code", [some "98101", some "97201"])]
      [("voter_id", "voter_id"), ("first_name", "first_name"),
       ("last_name", "last_name"), ("address", "address"), ("city", "city"),
       ("state", "state"), ("zip_code", "zip_code")]
      [("address", ⟨["address"], " "⟩)]).length = 2 ∧
    (sinkRows
      [("voter_id", [some "12345", some "12345"]),
       ("first_name", [some "JOHN", some "JANE"]),
       ("last_name", [some "SMITH", some "DOE"]),
       ("address", [some "123 MAIN ST", some "456 OAK AVE"]),
       ("city", [some "SEATTLE", some "PORTLAND"]),
       ("state", [some "WA", some "OR"]),
       ("zip_code", [some "98101", some "97201"])]
      [("voter_id", "voter_id"), ("first_name", "first_name"),
       ("last_name", "last_name"), ("address", "address"), ("city", "city"),
       ("state", "state"), ("zip_code", "zip_code")]
      [("address", ⟨["address"], " "⟩)]).map
        (fun r => lookupVal r "voter_id") =
      [some (some "12345"), some (some "12345")] := by
  refine ⟨by decide, by decide⟩

/-- C2: the destination table created by `create_table` has no `birth_date`
column (it has `birth_year` and `birthday` instead), although
`VoterSchema.required_fields` declares `birth_date` required; consequently no
canonical row set produced by the Import Engine ever contains the required
field `birth_date` as a column — `birth_date` is exactly the required field
missing from the table schema, and a concrete one-row import commits a row
without it while every other required field is present as a column. -/
theorem required_field_birth_date_missing_from_sink :
    required_fields.filter (fun f => !(tableColumns.contains f)) =
      ["birth_date"] ∧
    (tableColumns.contains "birth_date") = false ∧
    (required_fields.all
      (fun f => f == "birth_date" || tableColumns.contains f)) = true ∧
    ((sinkRows [("first_name", [some "John"])]
        [("first_name", "first_name")] [("address", ⟨[], " "⟩)]).all
      (fun r => !((r.map Prod.fst).contains "birth_date"))) = true ∧
    (sinkRows [("first_name", [some "John"])]
      [("first_name", "first_name")] [("address", ⟨[], " "⟩)]).length = 1 := by
  refine ⟨by decide, by decide, by decide, by decide, by decide⟩

/-- C9 counterexample: the claim is that a caller-supplied jurisdiction code
is stamped into the canonical `state` field, overriding any mapped raw
column.  On the code, importing with jurisdiction code `WA` a batch whose
mapped `state` column holds `OR` produces canonical state `OR`: the
jurisdiction code is never written into the rows. -/
theorem jurisdiction_code_not_stamped :
    lookupVal
      (import_main_rows "WA" ⟨[("st", "state")], [("address", ⟨[], " "⟩)]⟩
        [("st", [some "OR"])]) "state" = some [some "OR"] ∧
    ("OR" == "WA") = false := by
  refine ⟨by decide, by decide⟩

/-- C9 amended: the caller-supplied jurisdiction code selects the profile and
names the destination table but has no effect on the canonical rows: the
rows produced by `import_main` are identical for any two jurisdiction codes,
and the canonical `state` field always carries the value of the raw column
mapped to `state` (shown here for a profile mapping the raw column `st`). -/
theorem import_rows_independent_of_jurisdiction :
    (∀ (j₁ j₂ : String) (config : StateConfig) (df : DF),
      import_main_rows j₁ config df = import_main_rows j₂ config df) ∧
    (∀ (j v : String),
      lookupVal
        (import_main_rows j ⟨[("st", "state")], [("address", ⟨[], " "⟩)]⟩
          [("st", [some v])]) "state" = some [some v]) := by
  refine ⟨fun j₁ j₂ config df => rfl, fun j v => rfl⟩

end VoterFramework
